import Mathlib

/-!
Verification of the schema-to-TypeScript mapping core of `directus-typescript-gen`
(`src/cli.ts`).  The data model, the schema normalizer, the duplicate-name
resolver and the type renderer are embedded shallowly: TypeScript objects become
Lean structures, the insertion-ordered `Map`s become association lists with
JavaScript `Map.get`/`Map.set` semantics, and the imperative loops become folds.
JavaScript truthiness on optional strings (empty string and `undefined` are both
falsy) is modelled explicitly.
-/

namespace DirectusGen

/-- JavaScript `Map.prototype.get`: first (and only) binding of the key. -/
def jsGet {β : Type} (m : List (String × β)) (k : String) : Option β :=
  match m with
  | [] => none
  | (k2, v) :: rest => if k2 = k then some v else jsGet rest k

/-- JavaScript `Map.prototype.set`: update in place keeping the original
position, or append a new binding at the end. -/
def jsSet {β : Type} (m : List (String × β)) (k : String) (v : β) : List (String × β) :=
  match m with
  | [] => [(k, v)]
  | (k2, v2) :: rest => if k2 = k then (k, v) :: rest else (k2, v2) :: jsSet rest k v

/-- JavaScript truthiness of a `string | undefined` value: `undefined` and the
empty string are falsy. -/
def jsTruthy (o : Option String) : Bool :=
  match o with
  | some s => !s.isEmpty
  | none => false

/-- JavaScript `a || b` for `a : string | undefined`: `b` when `a` is absent or
empty. -/
def jsOr (a : Option String) (b : String) : String :=
  match a with
  | some s => if s.isEmpty then b else s
  | none => b

/-- Modelled from the spec: the `pascalCase` helper of the external
`change-case` dependency (not part of `src/`), used for display keys.  The
input is split into words at non-alphanumeric characters and at
lower-or-digit-to-upper boundaries; each word is upper-cased on its first
character and lower-cased on the rest, and the words are concatenated. -/
def pascalWordsAux : List Char → List Char → List (List Char)
  | [], cur => if cur.isEmpty then [] else [cur.reverse]
  | c :: rest, cur =>
    if !c.isAlphanum then
      if cur.isEmpty then pascalWordsAux rest [] else cur.reverse :: pascalWordsAux rest []
    else if c.isUpper && (match cur with | d :: _ => d.isLower || d.isDigit | [] => false) then
      cur.reverse :: pascalWordsAux rest [c]
    else
      pascalWordsAux rest (c :: cur)

/-- Capitalize one word: first character upper, rest lower. -/
def capWord : List Char → List Char
  | [] => []
  | c :: cs => c.toUpper :: cs.map Char.toLower

/-- Modelled from the spec: `change-case`'s `pascalCase` (external dependency,
see `pascalWordsAux`). -/
def pascalCase (s : String) : String :=
  String.mk (((pascalWordsAux s.data []).map capWord).flatten)

/-- Modelled from the spec: the `singular` helper of the external `pluralize`
dependency (not part of `src/`), restricted to the regular English rule
exercised by the generator: a word with a single trailing letter s drops it;
words ending in a double s, and words without a trailing s, are unchanged. -/
def singular (s : String) : String :=
  match s.data.reverse with
  | 's' :: 's' :: _ => s
  | 's' :: rest => String.mk rest.reverse
  | _ => s

/-- JavaScript `String.prototype.toLowerCase`, written on the character list
(extensionally the standard `String.toLower`). -/
def toLowerStr (s : String) : String :=
  String.mk (s.data.map Char.toLower)

/-- JavaScript `String.prototype.startsWith`, written on the character lists
(extensionally the standard `String.startsWith`). -/
def startsWithStr (s pre : String) : Bool :=
  pre.data.isPrefixOf s.data

/-! ## Data model (`src/cli.ts` interfaces) -/

/-- The derived `Field.relation` record of `src/cli.ts` (`table`, optional
`multiple` and `isM2M` flags; absent flags are modelled as `false`, matching
JavaScript truthiness of `undefined`). -/
structure FieldRel where
  table : String
  multiple : Bool
  isM2M : Bool
deriving Repr, DecidableEq

/-- Derived `Field` of `src/cli.ts` (spelling `posibleTypes` kept from the
source). -/
structure Field where
  key : String
  required : Bool
  nullable : Bool
  posibleTypes : List String
  relation : Option FieldRel
deriving Repr, DecidableEq

/-- Derived `Collection` of `src/cli.ts`. -/
structure Collection where
  table : String
  key : String
  fields : List Field
  singleton : Bool
deriving Repr, DecidableEq

/-- `Relation.meta` of `src/cli.ts` (all four members optional). -/
structure RelationMeta where
  many_collection : Option String
  many_field : Option String
  one_collection : Option String
  one_field : Option String
deriving Repr, DecidableEq

/-- Backend `Relation` metadata of `src/cli.ts`. -/
structure Relation where
  collection : String
  field : String
  related_collection : String
  meta : Option RelationMeta
deriving Repr, DecidableEq

/-- `FieldInfo.schema` of `src/cli.ts`; `foreign_key_table?: string | null` is
modelled as `Option String` (with `none` for both `undefined` and `null`). -/
structure FieldSchema where
  is_nullable : Bool
  is_primary_key : Bool
  foreign_key_table : Option String
deriving Repr, DecidableEq

/-- A declared choice value: either a bare string or an object carrying a
`value` member, as in `FieldInfo.meta.options.choices`. -/
inductive Choice where
  | str (s : String)
  | obj (value : String)
deriving Repr, DecidableEq

/-- The string a choice contributes (`typeof choice === 'string' ? choice :
choice.value` in the source). -/
def choiceText : Choice → String
  | .str s => s
  | .obj v => v

/-- `FieldInfo.meta.options` of `src/cli.ts`. -/
structure FieldOptions where
  choices : Option (List Choice)
deriving Repr, DecidableEq

/-- `FieldInfo.meta` of `src/cli.ts`. -/
structure FieldMeta where
  options : Option FieldOptions
  special : Option (List String)
  interface : Option String
  required : Bool
deriving Repr, DecidableEq

/-- Backend `FieldInfo` of `src/cli.ts`. -/
structure FieldInfo where
  collection : String
  field : String
  type : String
  schema : Option FieldSchema
  meta : Option FieldMeta
deriving Repr, DecidableEq

/-- One entry of `CollectionInfo.meta.translations` (the TypeScript member
named `singular` keeps its source name). -/
structure Translation where
  language : String
  translation : String
  singular : Option String
deriving Repr, DecidableEq

/-- `CollectionInfo.meta` of `src/cli.ts`. -/
structure CollectionMeta where
  translations : Option (List Translation)
  singleton : Bool
deriving Repr, DecidableEq

/-- Backend `CollectionInfo` of `src/cli.ts`. -/
structure CollectionInfo where
  collection : String
  meta : CollectionMeta
deriving Repr, DecidableEq

/-! ## Fixed tables (`src/cli.ts` lines 90-112) -/

/-- The fixed backend-type to TypeScript-type table `types`. -/
def types : List (String × String) :=
  [("string", "string"), ("uuid", "string"), ("timestamp", "string"),
   ("dateTime", "string"), ("date", "string"), ("integer", "number"),
   ("boolean", "boolean"), ("text", "string"), ("json", "string"),
   ("alias", "number"), ("csv", "string"), ("bigInteger", "number"),
   ("hash", "string"), ("float", "number")]

/-- `fieldsToAvoidChoices`: field names whose choices are never narrowed. -/
def fieldsToAvoidChoices : List String := ["auth_password_policy"]

/-- `multipleSpecial`: special markers that make an alias field a multi-valued
relation candidate. -/
def multipleSpecial : List String := ["o2m", "m2m", "translations"]

/-- `stringArrayInterfaces`: json interfaces rendered as `string[]`. -/
def stringArrayInterfaces : List String := ["tags", "select-multiple-checkbox-tree"]

/-! ## `getTypes` (`src/cli.ts` lines 114-148) -/

/-- Whether `meta?.options?.choices?.length` is truthy. -/
def hasChoices (meta : Option FieldMeta) : Bool :=
  match meta with
  | some m =>
    match m.options with
    | some o =>
      match o.choices with
      | some cs => !cs.isEmpty
      | none => false
    | none => false
  | none => false

/-- The choices list of a field's metadata (used only under `hasChoices`). -/
def choicesOf (meta : Option FieldMeta) : List Choice :=
  match meta with
  | some m =>
    match m.options with
    | some o => o.choices.getD []
    | none => []
  | none => []

/-- `getTypes` with its `console.error` output made explicit: returns the
candidate type list together with the diagnostics the call prints. -/
def getTypesCore (field : String) (directusType : String) (meta : Option FieldMeta) :
    List String × List String :=
  let interfaceOk :=
    match meta with
    | some m =>
      match m.interface with
      | some i => !i.isEmpty && stringArrayInterfaces.contains i
      | none => false
    | none => false
  if directusType == "json" && interfaceOk then
    (["string[]"], [])
  else
    let type := jsGet types directusType
    if !(fieldsToAvoidChoices.contains field) && directusType != "json" && hasChoices meta then
      ((choicesOf meta).map (fun choice =>
        let surrounding := if type != some "number" then "\x27" else ""
        surrounding ++ choiceText choice ++ surrounding), [])
    else
      match type with
      | some t => ([t], [])
      | none => ([], ["Type " ++ directusType ++ " missing"])

/-- `getTypes` of `src/cli.ts`: the candidate primitive-type list of a
non-relational field. -/
def getTypes (field : String) (directusType : String) (meta : Option FieldMeta) :
    List String :=
  (getTypesCore field directusType meta).1

/-! ## `getTypesText` (`src/cli.ts` lines 150-180) -/

/-- The types contributed by a relation inside `getTypesText`: the target
collection's identifier type (when recorded) followed by its display key;
nothing when the target collection is unknown. -/
def relationTypes (collectionsMap : List (String × Collection))
    (collectionIdType : List (String × String)) : Option FieldRel → List String
  | none => []
  | some r =>
    match jsGet collectionsMap r.table with
    | some c =>
      (match jsGet collectionIdType r.table with
       | some t => [t]
       | none => []) ++ [c.key]
    | none => []

/-- The combined candidate list `res` of `getTypesText`: the field's own
candidates followed by the relation contribution. -/
def combinedTypes (fieldTypes : List String) (collectionsMap : List (String × Collection))
    (collectionIdType : List (String × String)) (relation : Option FieldRel) : List String :=
  fieldTypes ++ relationTypes collectionsMap collectionIdType relation

/-- `getTypesText` of `src/cli.ts`: renders one field's type expression. -/
def getTypesText (fieldTypes : List String) (collectionsMap : List (String × Collection))
    (collectionIdType : List (String × String)) (nullable : Bool)
    (relation : Option FieldRel) : String :=
  let res := combinedTypes fieldTypes collectionsMap collectionIdType relation
  let relMultiple := (relation.map FieldRel.multiple).getD false
  let addNull := nullable && !relMultiple
  let multipleTypes := decide (1 < res.length)
  (if multipleTypes && addNull then "(" else "") ++
    String.intercalate " | "
      (res.map (fun r => r ++ (if multipleTypes && !addNull && relMultiple then "[]" else ""))) ++
    (if multipleTypes && addNull then ")" else "") ++
    (if !(multipleTypes && !addNull) && relMultiple then "[]" else "") ++
    (if addNull then " | null" else "")

/-! ## Reverse-relation index (`src/cli.ts` lines 231-249) -/

/-- Builds `relatedCollectionByKey`: for every relation whose `many_collection`
equals its own `collection` and which carries a truthy `one_collection` and a
truthy `one_field` or `many_field`, maps `one_collection ++ "|" ++ (one_field
|| many_field)` to the relation's `collection`. -/
def buildRelatedByKey (relations : List Relation) : List (String × String) :=
  relations.foldl
    (fun acc r =>
      match r.meta with
      | some m =>
        if m.many_collection == some r.collection && jsTruthy m.one_collection &&
            (jsTruthy m.one_field || jsTruthy m.many_field) then
          let oneField := if jsTruthy m.one_field then m.one_field.getD "" else m.many_field.getD ""
          jsSet acc (m.one_collection.getD "" ++ "|" ++ oneField) r.collection
        else acc
      | none => acc)
    []

/-! ## Field construction (`src/cli.ts` lines 299-346) -/

/-- Whether the field is skipped entirely: alias type with a `group` or
`no-data` special marker (`src/cli.ts` lines 259-261). -/
def avoidField (fi : FieldInfo) : Bool :=
  fi.type == "alias" &&
    (match fi.meta with
     | some m =>
       match m.special with
       | some l => l.any (fun s => s == "group" || s == "no-data")
       | none => false
     | none => false)

/-- The initial `Field` record (`src/cli.ts` lines 299-305): key, required and
nullable flags, no candidate types, no relation yet. -/
def buildFieldBase (fi : FieldInfo) : Field :=
  { key := fi.field
    required := (fi.meta.map FieldMeta.required).getD false
    nullable :=
      match fi.schema with
      | some sch => sch.is_nullable && !sch.is_primary_key
      | none => false
    posibleTypes := []
    relation := none }

/-- Whether the field is an alias field with a special marker in
`multipleSpecial` (`src/cli.ts` lines 307-310). -/
def aliasMultipleOf (fi : FieldInfo) : Bool :=
  fi.type == "alias" &&
    (match fi.meta with
     | some m =>
       match m.special with
       | some l => l.any (fun sp => multipleSpecial.contains sp)
       | none => false
     | none => false)

/-- Whether the field's special markers include `m2m` (`src/cli.ts` line 318). -/
def isM2MOf (fi : FieldInfo) : Bool :=
  match fi.meta with
  | some m =>
    match m.special with
    | some l => l.any (fun sp => sp == "m2m")
    | none => false
  | none => false

/-- The alias multi-valued relation step (`src/cli.ts` lines 307-325): look the
field up in the reverse-relation index, mark a multi-valued relation when
found, print a diagnostic otherwise. -/
def buildFieldAlias (relatedByKey : List (String × String)) (fi : FieldInfo) (f : Field) :
    Field × List String :=
  if aliasMultipleOf fi then
    match jsGet relatedByKey (fi.collection ++ "|" ++ fi.field) with
    | some table => ({ f with relation := some ⟨table, true, isM2MOf fi⟩ }, [])
    | none =>
      (f, ["Table not found for relation " ++ fi.field ++ " (" ++ fi.collection ++ ")"])
  else (f, [])

/-- The foreign-key step (`src/cli.ts` lines 327-331): a truthy
`foreign_key_table` marks a single-valued relation. -/
def buildFieldFK (fi : FieldInfo) (f : Field) : Field :=
  match fi.schema.bind FieldSchema.foreign_key_table with
  | some fk =>
    if fk.isEmpty then f
    else { f with relation := some { table := fk, multiple := false, isM2M := false } }
  | none => f

/-- The candidate-types step (`src/cli.ts` lines 333-339): compute `getTypes`
only when no relation was recorded. -/
def buildFieldTypes (fi : FieldInfo) (f : Field) : Field × List String :=
  if f.relation.isNone then
    ({ f with posibleTypes := (getTypesCore fi.field fi.type fi.meta).1 },
      (getTypesCore fi.field fi.type fi.meta).2)
  else (f, [])

/-- The fixed `directus_users.avatar` override (`src/cli.ts` lines 341-346). -/
def buildFieldAvatar (fi : FieldInfo) (f : Field) : Field :=
  if fi.field == "avatar" && fi.collection == "directus_users" then
    { f with posibleTypes := f.posibleTypes ++ ["DirectusFile"] }
  else f

/-- The construction of one derived `Field` from a `FieldInfo` (`src/cli.ts`
lines 299-346), returning the field together with the diagnostics printed while
building it. -/
def buildField (relatedByKey : List (String × String)) (fi : FieldInfo) :
    Field × List String :=
  let step1 := buildFieldAlias relatedByKey fi (buildFieldBase fi)
  let step3 := buildFieldTypes fi (buildFieldFK fi step1.1)
  (buildFieldAvatar fi step3.1, step1.2 ++ step3.2)

/-! ## Schema normalizer state and main field loop (`src/cli.ts` lines 251-350) -/

/-- The mutable state of the main loop: identifier-type map, collection map,
collections grouped by their initially computed key (stored as table names,
since a collection object is identified by its unique table), the
insertion-ordered set of duplicated keys, and the printed diagnostics. -/
structure GenState where
  collectionIdType : List (String × String)
  collectionsMap : List (String × Collection)
  collectionsByKey : List (String × List String)
  duplicatedCollectionKeys : List String
  diags : List String
deriving Repr, DecidableEq

/-- The empty state at the start of the field loop. -/
def initState : GenState := ⟨[], [], [], [], []⟩

/-- The primary-key identifier-type step (`src/cli.ts` lines 264-271): a field
named `id` records its mapped backend type for the collection. -/
def recordIdType (s : GenState) (fi : FieldInfo) : GenState :=
  if fi.field == "id" then
    match jsGet types fi.type with
    | some t => { s with collectionIdType := jsSet s.collectionIdType fi.collection t }
    | none => { s with diags := s.diags ++ ["Missing type for " ++ fi.type] }
  else s

/-- The pre-PascalCase key source of a collection (`src/cli.ts` lines 275-281):
the English translation's explicit singular, else the singularized translation,
else the singularized table name. -/
def collectionKeyOf (cinfos : List (String × CollectionInfo)) (coll : String) : String :=
  let ci := jsGet cinfos coll
  let tr := ci.bind (fun x => x.meta.translations.bind
    (fun ts => ts.find? (fun t => startsWithStr (toLowerStr t.language) "en")))
  pascalCase
    (jsOr (tr.bind Translation.singular) (singular (jsOr (tr.map Translation.translation) coll)))

/-- Collection construction on first sight of a table (`src/cli.ts` lines
272-297): build the `Collection`, register it in the map, append it to its key
group, and record the key as duplicated when the group grew beyond one. -/
def ensureCollection (cinfos : List (String × CollectionInfo)) (coll : String)
    (s1 : GenState) : GenState × Collection :=
  match jsGet s1.collectionsMap coll with
  | some c => (s1, c)
  | none =>
    let key := collectionKeyOf cinfos coll
    let sing := ((jsGet cinfos coll).map (fun x => x.meta.singleton)).getD false
    let c : Collection :=
      { table := coll
        key := if sing then key else singular key
        fields := []
        singleton := sing }
    let byKeyNew := (jsGet s1.collectionsByKey key).getD [] ++ [coll]
    let dup :=
      if decide (1 < byKeyNew.length) && !(s1.duplicatedCollectionKeys.contains key) then
        s1.duplicatedCollectionKeys ++ [key]
      else s1.duplicatedCollectionKeys
    ({ s1 with
        collectionsMap := jsSet s1.collectionsMap coll c
        collectionsByKey := jsSet s1.collectionsByKey key byKeyNew
        duplicatedCollectionKeys := dup }, c)

/-- One iteration of the main field loop (`src/cli.ts` lines 256-350). -/
def processField (cinfos : List (String × CollectionInfo)) (relatedByKey : List (String × String))
    (s : GenState) (fi : FieldInfo) : GenState :=
  if avoidField fi then s
  else
    let sc := ensureCollection cinfos fi.collection (recordIdType s fi)
    let fld := buildField relatedByKey fi
    { sc.1 with
        collectionsMap := jsSet sc.1.collectionsMap fi.collection
          { sc.2 with fields := sc.2.fields ++ [fld.1] }
        diags := sc.1.diags ++ fld.2 }

/-- The `collectionsInfo` map (`src/cli.ts` lines 217-219). -/
def buildCollectionsInfo (collections : List CollectionInfo) : List (String × CollectionInfo) :=
  collections.foldl (fun m c => jsSet m c.collection c) []

/-- The whole field loop over the backend field list. -/
def normalizeFields (cinfos : List (String × CollectionInfo))
    (relatedByKey : List (String × String)) (fields : List FieldInfo) : GenState :=
  fields.foldl (processField cinfos relatedByKey) initState

/-! ## Name resolver (`src/cli.ts` lines 352-396) -/

/-- Stable insertion of a collection into a list sorted by ascending table-name
length: the new element goes after every element of smaller or equal length. -/
def insertByLen (c : Collection) : List Collection → List Collection
  | [] => [c]
  | d :: ds => if d.table.length ≤ c.table.length then d :: insertByLen c ds else c :: d :: ds

/-- The stable sort by ascending table-name length performed on each collision
group (`collections.sort` with the length comparator). -/
def sortByTableLen (l : List Collection) : List Collection :=
  l.foldl (fun acc c => insertByLen c acc) []

/-- The best-match selection on the (sorted, nonempty) collision group: table
equal to the key case-insensitively, else table starting with the key
case-insensitively, else the first member. -/
def bestMatchOf (key : String) : List Collection → Option Collection
  | [] => none
  | c0 :: rest =>
    let sorted := c0 :: rest
    let lowerKey := toLowerStr key
    some (((sorted.find? fun c => toLowerStr c.table == lowerKey).getD
      ((sorted.find? fun c => startsWithStr (toLowerStr c.table) lowerKey).getD c0)))

/-- The key a group member ends up with: the group key for the best match,
else the PascalCase of its own table name, singularized unless singleton. -/
def resolvedKey (groupKey : String) (bestTable : String) (c : Collection) : String :=
  if c.table == bestTable then groupKey
  else
    let k := pascalCase c.table
    if c.singleton then k else singular k

/-- Processing of one duplicated key (`src/cli.ts` lines 354-395): fetch the
group, sort it, pick the best match and rewrite every member's key in the
collection map. -/
def resolveGroup (byKey : List (String × List String)) (m : List (String × Collection))
    (key : String) : List (String × Collection) :=
  match jsGet byKey key with
  | none => m
  | some tables =>
    let cols := tables.filterMap (fun t => jsGet m t)
    match bestMatchOf key (sortByTableLen cols) with
    | none => m
    | some best =>
      (sortByTableLen cols).foldl
        (fun mm c => jsSet mm c.table { c with key := resolvedKey key best.table c }) m

/-- The whole resolver loop over the duplicated keys (a falsy — empty — key is
skipped by the `if (key)` guard). -/
def resolveDuplicates (s : GenState) : GenState :=
  { s with
      collectionsMap := s.duplicatedCollectionKeys.foldl
        (fun m k => if k.isEmpty then m else resolveGroup s.collectionsByKey m k)
        s.collectionsMap }

/-- The full core pipeline: normalize the field list, then resolve duplicate
display keys. -/
def generateModel (collections : List CollectionInfo) (fields : List FieldInfo)
    (relations : List Relation) : GenState :=
  resolveDuplicates
    (normalizeFields (buildCollectionsInfo collections) (buildRelatedByKey relations) fields)

/-! ## Type renderer (`src/cli.ts` lines 398-438) -/

/-- One rendered field line (`src/cli.ts` lines 409-419): optional-field marker
unless required or named `id`, then the rendered type expression. -/
def renderFieldLine (m : List (String × Collection)) (idm : List (String × String))
    (f : Field) : String :=
  "  " ++ f.key ++ (if f.required || f.key == "id" then "" else "?") ++ ": " ++
    getTypesText f.posibleTypes m idm f.nullable f.relation ++ ";"

/-- The rendered lines of one composite type declaration (`src/cli.ts` lines
405-422). -/
def renderCollectionLines (m : List (String × Collection)) (idm : List (String × String))
    (c : Collection) : List String :=
  ("export type " ++ c.key ++ " = \x7b") ::
    (c.fields.map (renderFieldLine m idm) ++ ["\x7d;\n"])

/-- The rendered registry type lines (`src/cli.ts` lines 424-429): every table
name maps to the collection key, array-wrapped unless legacy or singleton. -/
def renderRegistry (typeName : String) (legacy : Option Bool) (cols : List Collection) :
    List String :=
  ("export type " ++ typeName ++ " = \x7b") ::
    (cols.map (fun c =>
      "  " ++ c.table ++ ": " ++ c.key ++
        (if !(legacy.getD false) && !c.singleton then "[]" else "") ++ ";")
      ++ ["\x7d;\n"])

/-! ## Concrete input fixtures -/

/-- The C1 scenario collections: `authors` and `books`, neither a singleton,
no translations. -/
def c1collections : List CollectionInfo :=
  [⟨"authors", ⟨none, false⟩⟩, ⟨"books", ⟨none, false⟩⟩]

/-- The C1 scenario fields: `authors.id` (uuid, primary key), `authors.name`
(string, required), `authors.books` (alias, special `o2m`), and `books.id`
(uuid, primary key). -/
def c1fields : List FieldInfo :=
  [⟨"authors", "id", "uuid", some ⟨false, true, none⟩, some ⟨none, none, none, false⟩⟩,
   ⟨"authors", "name", "string", some ⟨false, false, none⟩, some ⟨none, none, none, true⟩⟩,
   ⟨"authors", "books", "alias", none, some ⟨none, some ["o2m"], none, false⟩⟩,
   ⟨"books", "id", "uuid", some ⟨false, true, none⟩, some ⟨none, none, none, false⟩⟩]

/-- The C1 scenario relation: `books.author` is the many side, so the reverse
index maps `(authors, books)` to the table `books`. -/
def c1relations : List Relation :=
  [⟨"books", "author", "authors", some ⟨some "books", some "author", some "authors", some "books"⟩⟩]

/-- The pipeline state for the C1 scenario. -/
def c1state : GenState := generateModel c1collections c1fields c1relations

/-- The C3 counterexample collections: `alpha` and `beta` both translate to the
key `Dup`, and `gamma` translates to `Alpha` — the key `alpha` is rekeyed to
after resolution. -/
def c3collections : List CollectionInfo :=
  [⟨"alpha", ⟨some [⟨"en", "x", some "Dup"⟩], false⟩⟩,
   ⟨"beta", ⟨some [⟨"en", "x", some "Dup"⟩], false⟩⟩,
   ⟨"gamma", ⟨some [⟨"en", "x", some "Alpha"⟩], false⟩⟩]

/-- One plain string field per table of the C3 counterexample. -/
def c3fields : List FieldInfo :=
  [⟨"alpha", "a", "string", none, none⟩,
   ⟨"beta", "a", "string", none, none⟩,
   ⟨"gamma", "a", "string", none, none⟩]

/-- The pipeline state for the C3 counterexample. -/
def c3state : GenState := generateModel c3collections c3fields []

/-! ## Association-list lemmas -/

theorem jsGet_jsSet_self {β : Type} (m : List (String × β)) (k : String) (v : β) :
    jsGet (jsSet m k v) k = some v := by
  induction m with
  | nil => simp [jsGet, jsSet]
  | cons p rest ih =>
    obtain ⟨k2, v2⟩ := p
    by_cases h : k2 = k
    · simp [jsGet, jsSet, h]
    · simp [jsGet, jsSet, h, ih]

theorem jsGet_jsSet_ne {β : Type} (m : List (String × β)) (k k' : String) (v : β)
    (h : k ≠ k') : jsGet (jsSet m k v) k' = jsGet m k' := by
  induction m with
  | nil => simp [jsGet, jsSet, h]
  | cons p rest ih =>
    obtain ⟨k2, v2⟩ := p
    by_cases h2 : k2 = k
    · subst h2
      simp [jsGet, jsSet, h]
    · by_cases h3 : k2 = k'
      · simp [jsGet, jsSet, h2, h3, Ne.symm h]
      · simp [jsGet, jsSet, h2, h3, ih]

/-! ## Claim C10 -/

/-- Claim C10: for every field whose backend type is `json` and whose metadata
interface is `tags` or `select-multiple-checkbox-tree`, the candidate-type list
is exactly `string[]`, bypassing choice narrowing and the generic json-to-string
mapping. -/
theorem c10_json_string_array_interface (f : String) (m : FieldMeta) (i : String)
    (hi : m.interface = some i) (hmem : stringArrayInterfaces.contains i = true) :
    getTypes f "json" (some m) = ["string[]"] := by
  have hcases : i = "tags" ∨ i = "select-multiple-checkbox-tree" := by
    simpa [stringArrayInterfaces] using hmem
  rcases hcases with h | h <;> subst h
  all_goals
    simp only [getTypes, getTypesCore, hi]
    split
    · rfl
    · rename_i hcond
      exact absurd (by decide) hcond

/-- Witness for C10 at a concrete input. -/
theorem c10_witness :
    getTypes "data" "json" (some ⟨none, none, some "tags", false⟩) = ["string[]"] :=
  c10_json_string_array_interface "data" ⟨none, none, some "tags", false⟩ "tags" rfl (by decide)

/-! ## Claim C9 -/

/-- Claim C9: for every non-relational field with non-empty declared choices, a
field name outside the exclusion set and a backend type other than `json`, each
choice becomes one literal-type candidate, quoted with single quotes unless the
mapped primitive is `number`. -/
theorem c9_choice_literals (f t : String) (m : FieldMeta) (cs : List Choice)
    (hj : t ≠ "json") (hav : fieldsToAvoidChoices.contains f = false)
    (hc : m.options = some ⟨some cs⟩) (hne : cs ≠ []) :
    getTypes f t (some m) =
      cs.map (fun choice =>
        (if jsGet types t != some "number" then "\x27" else "") ++ choiceText choice ++
          (if jsGet types t != some "number" then "\x27" else "")) := by
  have hb : (t == "json") = false := by simpa using hj
  have hch : hasChoices (some m) = true := by
    simp [hasChoices, hc, List.isEmpty_iff, hne]
  have hf : f ∉ fieldsToAvoidChoices := by simpa using hav
  simp [getTypes, getTypesCore, hb, hch, hf, hj, choicesOf, hc]

/-- Witness for C9: backend type `integer` with choices `1`, `2` yields the
unquoted candidates `1` and `2`, rendered as `1 | 2`. -/
theorem c9_witness :
    getTypes "level" "integer" (some ⟨some ⟨some [.str "1", .str "2"]⟩, none, none, false⟩) =
        ["1", "2"] ∧
      getTypesText ["1", "2"] [] [] false none = "1 | 2" :=
  ⟨(c9_choice_literals "level" "integer" ⟨some ⟨some [.str "1", .str "2"]⟩, none, none, false⟩
      [.str "1", .str "2"] (by decide) (by decide) rfl (by decide)).trans (by decide),
   by decide⟩

/-! ## Claim C4 -/

/-- Claim C4 (amended): for every multi-valued relational field exactly one of
the two array-suffix placements is applied, chosen by whether the combined
candidate list has more than one entry — per-member suffixes when it does, a
single outer suffix otherwise.  Nullability never affects the choice: the
rendered expression is independent of the `nullable` flag because the null
alternative is suppressed for multi-valued relations. -/
theorem c4_array_suffix_placement (fieldTypes : List String)
    (m : List (String × Collection)) (idm : List (String × String))
    (nullable : Bool) (r : FieldRel) (hm : r.multiple = true) :
    getTypesText fieldTypes m idm nullable (some r) =
      (if 1 < (combinedTypes fieldTypes m idm (some r)).length then
        String.intercalate " | "
          ((combinedTypes fieldTypes m idm (some r)).map (fun x => x ++ "[]"))
      else String.intercalate " | " (combinedTypes fieldTypes m idm (some r)) ++ "[]") := by
  by_cases hlen : 1 < (combinedTypes fieldTypes m idm (some r)).length <;>
    simp [getTypesText, hm, hlen, String.append_empty, String.empty_append]

/-- Witness for C4 at a concrete input: a single-member combined list gets the
outer array suffix. -/
theorem c4_witness :
    getTypesText ["string"] [] [] false (some ⟨"books", true, false⟩) = "string[]" :=
  (c4_array_suffix_placement ["string"] [] [] false ⟨"books", true, false⟩ rfl).trans (by decide)

/-- Counterexample to C4 as stated: with a multi-valued relation the rendered
expression is the same whether nullability co-occurs or not, and the per-member
array suffix is applied even when the field is nullable (the claim says
nullability determines the placement and suppresses the per-member suffix). -/
theorem c4_counterexample :
    getTypesText [] [("books", ⟨"books", "Book", [], false⟩)] [("books", "string")] true
        (some ⟨"books", true, false⟩) = "string[] | Book[]" ∧
      getTypesText [] [("books", ⟨"books", "Book", [], false⟩)] [("books", "string")] false
        (some ⟨"books", true, false⟩) = "string[] | Book[]" ∧
      ("string[] | Book[]" : String) ≠ "(string | Book)[]" := by
  refine ⟨by decide, by decide, by decide⟩

/-! ## Step lemmas about the field construction -/

theorem buildFieldAlias_posibleTypes (rbk : List (String × String)) (fi : FieldInfo)
    (f : Field) : (buildFieldAlias rbk fi f).1.posibleTypes = f.posibleTypes := by
  unfold buildFieldAlias
  split
  · split <;> rfl
  · rfl

theorem buildFieldFK_posibleTypes (fi : FieldInfo) (f : Field) :
    (buildFieldFK fi f).posibleTypes = f.posibleTypes := by
  unfold buildFieldFK
  split
  · split <;> rfl
  · rfl

theorem buildFieldTypes_relation (fi : FieldInfo) (f : Field) :
    (buildFieldTypes fi f).1.relation = f.relation := by
  unfold buildFieldTypes
  split <;> rfl

theorem buildFieldTypes_of_some (fi : FieldInfo) (f : Field) (r : FieldRel)
    (h : f.relation = some r) : buildFieldTypes fi f = (f, []) := by
  simp [buildFieldTypes, h]

theorem buildFieldAvatar_of_ne (fi : FieldInfo) (f : Field)
    (h : (fi.field == "avatar" && fi.collection == "directus_users") = false) :
    buildFieldAvatar fi f = f := by
  simp [buildFieldAvatar, h]

theorem buildFieldAvatar_relation (fi : FieldInfo) (f : Field) :
    (buildFieldAvatar fi f).relation = f.relation := by
  unfold buildFieldAvatar
  split <;> rfl

/-! ## Claim C2 -/

/-- Claim C2 (amended): for every field other than the fixed
`directus_users.avatar` override, a present relation descriptor forces an empty
candidate-type list, and the combined list rendered for such a relational field
consists exactly of the relation contribution (the target's identifier type and
key) with no primitive candidates. -/
theorem c2_relation_excludes_candidates (rbk : List (String × String)) (fi : FieldInfo)
    (hav : ¬(fi.field = "avatar" ∧ fi.collection = "directus_users"))
    (r : FieldRel) (hr : (buildField rbk fi).1.relation = some r)
    (m : List (String × Collection)) (idm : List (String × String)) :
    (buildField rbk fi).1.posibleTypes = [] ∧
      combinedTypes (buildField rbk fi).1.posibleTypes m idm (some r) =
        relationTypes m idm (some r) := by
  have hb : (fi.field == "avatar" && fi.collection == "directus_users") = false := by
    by_cases h1 : fi.field = "avatar"
    · by_cases h2 : fi.collection = "directus_users"
      · exact absurd ⟨h1, h2⟩ hav
      · have h2b : (fi.collection == "directus_users") = false := by simpa using h2
        simp [h2b]
    · have h1b : (fi.field == "avatar") = false := by simpa using h1
      simp [h1b]
  have hbf : (buildField rbk fi).1 =
      (buildFieldTypes fi (buildFieldFK fi (buildFieldAlias rbk fi (buildFieldBase fi)).1)).1 := by
    simp [buildField, buildFieldAvatar_of_ne _ _ hb]
  cases hrel : (buildFieldFK fi (buildFieldAlias rbk fi (buildFieldBase fi)).1).relation with
  | none =>
    rw [hbf, buildFieldTypes_relation, hrel] at hr
    cases hr
  | some r2 =>
    have h3 := buildFieldTypes_of_some fi _ r2 hrel
    have hempty : (buildField rbk fi).1.posibleTypes = [] := by
      rw [hbf, h3, buildFieldFK_posibleTypes, buildFieldAlias_posibleTypes]
      rfl
    exact ⟨hempty, by simp [combinedTypes, hempty]⟩

/-- Witness for C2 at a concrete input: a plain foreign-key field has a
relation and no candidate types. -/
theorem c2_witness :
    (buildField [] ⟨"posts", "author", "uuid", some ⟨false, false, some "authors"⟩, none⟩).1.posibleTypes
        = [] ∧
      combinedTypes
          (buildField [] ⟨"posts", "author", "uuid", some ⟨false, false, some "authors"⟩, none⟩).1.posibleTypes
          [] [] (some ⟨"authors", false, false⟩) =
        relationTypes [] [] (some ⟨"authors", false, false⟩) :=
  c2_relation_excludes_candidates [] ⟨"posts", "author", "uuid", some ⟨false, false, some "authors"⟩, none⟩
    (by decide) ⟨"authors", false, false⟩ (by decide) [] []

/-- Counterexample to C2 as stated: the `directus_users.avatar` field with a
foreign-key target gets both a relation descriptor and the non-empty candidate
list `DirectusFile`. -/
theorem c2_counterexample :
    (buildField [] ⟨"directus_users", "avatar", "uuid", some ⟨true, false, some "directus_files"⟩, none⟩).1.relation
        = some ⟨"directus_files", false, false⟩ ∧
      (buildField [] ⟨"directus_users", "avatar", "uuid", some ⟨true, false, some "directus_files"⟩, none⟩).1.posibleTypes
        = ["DirectusFile"] := by
  refine ⟨by decide, by decide⟩

/-! ## Claim C5 -/

/-- Claim C5 (amended): an alias field with a multi-valued special marker whose
reverse-relation lookup misses is reported as a diagnostic and left with no
relation descriptor, but its candidate-type list is not empty: it falls back to
the generic alias mapping, the single entry `number` (when no choices are
declared); only that single field degrades and the run is not aborted. -/
theorem c5_missing_reverse_relation (rbk : List (String × String)) (fi : FieldInfo)
    (mta : FieldMeta) (l : List String)
    (hty : fi.type = "alias") (hmeta : fi.meta = some mta) (hl : mta.special = some l)
    (hany : l.any (fun sp => multipleSpecial.contains sp) = true)
    (hmiss : jsGet rbk (fi.collection ++ "|" ++ fi.field) = none)
    (hfk : fi.schema.bind FieldSchema.foreign_key_table = none)
    (hch : hasChoices fi.meta = false)
    (hav : (fi.field == "avatar" && fi.collection == "directus_users") = false) :
    (buildField rbk fi).1.relation = none ∧
      (buildField rbk fi).1.posibleTypes = ["number"] ∧
      (buildField rbk fi).2 =
        ["Table not found for relation " ++ fi.field ++ " (" ++ fi.collection ++ ")"] := by
  have ham : aliasMultipleOf fi = true := by
    simp only [aliasMultipleOf, hty, hmeta, hl]
    rw [hany]
    rfl
  have h1 : buildFieldAlias rbk fi (buildFieldBase fi) =
      (buildFieldBase fi,
        ["Table not found for relation " ++ fi.field ++ " (" ++ fi.collection ++ ")"]) := by
    simp [buildFieldAlias, ham, hmiss]
  have h2 : buildFieldFK fi (buildFieldBase fi) = buildFieldBase fi := by
    simp [buildFieldFK, hfk]
  have hget : getTypesCore fi.field fi.type fi.meta = (["number"], []) := by
    rw [hty]
    simp [getTypesCore, hch, types, jsGet]
  have h3 : buildFieldTypes fi (buildFieldBase fi) =
      ({ buildFieldBase fi with posibleTypes := ["number"] }, []) := by
    simp [buildFieldTypes, buildFieldBase, hget]
  have h4 : buildField rbk fi =
      ({ buildFieldBase fi with posibleTypes := ["number"] },
        ["Table not found for relation " ++ fi.field ++ " (" ++ fi.collection ++ ")"]) := by
    simp [buildField, h1, h2, h3, buildFieldAvatar_of_ne _ _ hav]
  rw [h4]
  exact ⟨rfl, rfl, rfl⟩

/-- Witness for C5 at a concrete input. -/
theorem c5_witness :
    (buildField [] ⟨"authors", "books", "alias", none, some ⟨none, some ["o2m"], none, false⟩⟩).1.relation
        = none ∧
      (buildField [] ⟨"authors", "books", "alias", none, some ⟨none, some ["o2m"], none, false⟩⟩).1.posibleTypes
        = ["number"] ∧
      (buildField [] ⟨"authors", "books", "alias", none, some ⟨none, some ["o2m"], none, false⟩⟩).2
        = ["Table not found for relation books (authors)"] :=
  c5_missing_reverse_relation [] ⟨"authors", "books", "alias", none, some ⟨none, some ["o2m"], none, false⟩⟩
    ⟨none, some ["o2m"], none, false⟩ ["o2m"] rfl rfl rfl (by decide) rfl rfl (by decide) (by decide)

/-- Counterexample to C5 as stated: the degraded field's candidate-type list is
`number`, not empty. -/
theorem c5_counterexample :
    (buildField [] ⟨"authors", "tags", "alias", none, some ⟨none, some ["m2m"], none, false⟩⟩).1.relation
        = none ∧
      (buildField [] ⟨"authors", "tags", "alias", none, some ⟨none, some ["m2m"], none, false⟩⟩).1.posibleTypes
        ≠ [] := by
  refine ⟨by decide, by decide⟩

/-! ## Claim C6 -/

/-- Claim C6 (amended): the `multipleSpecial` set is exactly `o2m`, `m2m` and
`translations`; the `files` marker is not a member, so an alias field whose
special markers include `files` but none of those three is not marked as a
multi-valued relation, even when a reverse-relation index entry exists for it. -/
theorem c6_files_marker_not_multiple (rbk : List (String × String)) (fi : FieldInfo)
    (mta : FieldMeta) (l : List String) (t : String)
    (hty : fi.type = "alias") (hmeta : fi.meta = some mta) (hl : mta.special = some l)
    (hfiles : "files" ∈ l)
    (hnone : l.any (fun sp => multipleSpecial.contains sp) = false)
    (hfk : fi.schema.bind FieldSchema.foreign_key_table = none)
    (hrel : jsGet rbk (fi.collection ++ "|" ++ fi.field) = some t) :
    multipleSpecial.contains "files" = false ∧
      (buildField rbk fi).1.relation = none := by
  refine ⟨by decide, ?_⟩
  have ham : aliasMultipleOf fi = false := by
    simp only [aliasMultipleOf, hmeta, hl]
    rw [hnone]
    simp
  have h1 : buildFieldAlias rbk fi (buildFieldBase fi) = (buildFieldBase fi, []) := by
    simp [buildFieldAlias, ham]
  have h2 : buildFieldFK fi (buildFieldBase fi) = buildFieldBase fi := by
    simp [buildFieldFK, hfk]
  simp [buildField, h1, h2, buildFieldAvatar_relation, buildFieldTypes_relation]
  rfl

/-- Witness for C6 at a concrete input. -/
theorem c6_witness :
    multipleSpecial.contains "files" = false ∧
      (buildField [("authors|attachments", "books")]
          ⟨"authors", "attachments", "alias", none, some ⟨none, some ["files"], none, false⟩⟩).1.relation
        = none :=
  c6_files_marker_not_multiple [("authors|attachments", "books")]
    ⟨"authors", "attachments", "alias", none, some ⟨none, some ["files"], none, false⟩⟩
    ⟨none, some ["files"], none, false⟩ ["files"] "books" rfl rfl rfl (by decide) (by decide)
    rfl rfl

/-- Counterexample to C6 as stated: an alias field carrying the `files` special
marker, with a matching reverse-relation index entry, is not marked as a
multi-valued relation — its relation descriptor stays absent. -/
theorem c6_counterexample :
    jsGet [("authors|attachments", "books")] ("authors" ++ "|" ++ "attachments") = some "books" ∧
      (buildField [("authors|attachments", "books")]
          ⟨"authors", "attachments", "alias", none, some ⟨none, some ["files"], none, false⟩⟩).1.relation
        = none := by
  refine ⟨by decide, by decide⟩

/-! ## Step lemmas about the main loop -/

theorem recordIdType_collectionsMap (s : GenState) (fi : FieldInfo) :
    (recordIdType s fi).collectionsMap = s.collectionsMap := by
  unfold recordIdType
  split
  · split <;> rfl
  · rfl

theorem ensureCollection_snd_of_absent (cinfos : List (String × CollectionInfo)) (coll : String)
    (s1 : GenState) (habs : jsGet s1.collectionsMap coll = none) :
    (ensureCollection cinfos coll s1).2 =
      { table := coll
        key :=
          if ((jsGet cinfos coll).map (fun x => x.meta.singleton)).getD false then
            collectionKeyOf cinfos coll
          else singular (collectionKeyOf cinfos coll)
        fields := []
        singleton := ((jsGet cinfos coll).map (fun x => x.meta.singleton)).getD false } := by
  simp only [ensureCollection, habs]

theorem ensureCollection_jsGet (cinfos : List (String × CollectionInfo)) (coll : String)
    (s1 : GenState) :
    jsGet (ensureCollection cinfos coll s1).1.collectionsMap coll =
      some (ensureCollection cinfos coll s1).2 := by
  unfold ensureCollection
  cases h : jsGet s1.collectionsMap coll with
  | some c => simpa using h
  | none => simpa using jsGet_jsSet_self s1.collectionsMap coll _

theorem processField_collection (cinfos : List (String × CollectionInfo))
    (rbk : List (String × String)) (s : GenState) (fi : FieldInfo)
    (hav : avoidField fi = false) :
    jsGet (processField cinfos rbk s fi).collectionsMap fi.collection =
      some { (ensureCollection cinfos fi.collection (recordIdType s fi)).2 with
             fields := (ensureCollection cinfos fi.collection (recordIdType s fi)).2.fields ++
               [(buildField rbk fi).1] } := by
  simp only [processField, hav, Bool.false_eq_true, if_false]
  exact jsGet_jsSet_self _ _ _

/-! ## Claim C7 -/

/-- Claim C7 (amended): the display key of a newly seen collection is the
PascalCase of the translation's explicit singular form when present, else of
the singularized English translation or table name — so the pre-PascalCase
singularization applies to singletons too; a singleton skips only the second,
post-PascalCase singularization that non-singleton collections receive. -/
theorem c7_collection_key (cinfos : List (String × CollectionInfo))
    (rbk : List (String × String)) (s : GenState) (fi : FieldInfo) (ci : CollectionInfo)
    (hav : avoidField fi = false)
    (habs : jsGet s.collectionsMap fi.collection = none)
    (hci : jsGet cinfos fi.collection = some ci) :
    ∃ c, jsGet (processField cinfos rbk s fi).collectionsMap fi.collection = some c ∧
      c.singleton = ci.meta.singleton ∧
      c.key =
        (let tr := ci.meta.translations.bind
          (fun ts => ts.find? (fun t => startsWithStr (toLowerStr t.language) "en"))
         let inner := pascalCase
          (jsOr (tr.bind Translation.singular)
            (singular (jsOr (tr.map Translation.translation) fi.collection)))
         if ci.meta.singleton then inner else singular inner) := by
  have habs1 : jsGet (recordIdType s fi).collectionsMap fi.collection = none := by
    rw [recordIdType_collectionsMap]
    exact habs
  have hsnd := ensureCollection_snd_of_absent cinfos fi.collection (recordIdType s fi) habs1
  refine ⟨_, processField_collection cinfos rbk s fi hav, ?_, ?_⟩
  · simp [hsnd, hci]
  · simp [hsnd, hci, collectionKeyOf]

/-- Witness for C7 at a concrete input: a singleton collection named `authors`
with no translations gets the key `Author`. -/
theorem c7_witness :
    (jsGet (processField [("authors", ⟨"authors", ⟨none, true⟩⟩)] [] initState
        ⟨"authors", "name", "string", none, none⟩).collectionsMap "authors").map Collection.key
      = some "Author" := by
  obtain ⟨c, hc, hsing, hkey⟩ := c7_collection_key [("authors", ⟨"authors", ⟨none, true⟩⟩)] []
    initState ⟨"authors", "name", "string", none, none⟩ ⟨"authors", ⟨none, true⟩⟩
    (by decide) (by decide) (by decide)
  rw [hc, Option.map_some']
  rw [hkey]
  decide

/-- Counterexample to C7 as stated: for a singleton collection `authors`
without translations the claim predicts the key `Authors` (PascalCase of the
table name with no singularization), but the pipeline computes `Author`. -/
theorem c7_counterexample :
    (jsGet (processField [("authors", ⟨"authors", ⟨none, true⟩⟩)] [] initState
        ⟨"authors", "id", "uuid", none, none⟩).collectionsMap "authors").map Collection.key
      = some "Author" ∧
    pascalCase "authors" = "Authors" ∧ ("Author" : String) ≠ "Authors" := by
  refine ⟨by decide, by decide, by decide⟩

/-! ## Claim C8 -/

theorem append_semicolon_ne_brackets (s : String) : s ++ ";" ≠ s ++ "[];" := by
  intro h
  have h2 := congrArg String.length h
  rw [String.length_append, String.length_append] at h2
  have e1 : (";" : String).length = 1 := rfl
  have e2 : ("[];" : String).length = 3 := rfl
  rw [e1, e2] at h2
  omega

theorem wrap_suffix_iff (x : String) (b : Bool) :
    (x ++ (if b then "[]" else "") ++ ";" = x ++ "[];") ↔ b = true := by
  cases b
  · have h0 : (if (false : Bool) then "[]" else ("" : String)) = "" := rfl
    rw [h0, String.append_empty]
    simp only [Bool.false_eq_true, iff_false]
    exact append_semicolon_ne_brackets x
  · have h1 : (if (true : Bool) then "[]" else ("" : String)) = "[]" := rfl
    have hbr : ("[]" : String) ++ ";" = "[];" := by decide
    rw [h1, String.append_assoc, hbr]
    simp

/-- Claim C8: a collection's registry entry is array-wrapped if and only if the
legacy flag is falsy and the collection is not a singleton; singletons are
never wrapped, and nothing is wrapped under legacy. -/
theorem c8_registry_array_wrap (tn : String) (legacy : Option Bool) (cols : List Collection)
    (c : Collection) (hc : c ∈ cols) :
    ∃ line ∈ renderRegistry tn legacy cols,
      line = "  " ++ c.table ++ ": " ++ c.key ++
        (if !(legacy.getD false) && !c.singleton then "[]" else "") ++ ";" ∧
      ((legacy.getD false = false ∧ c.singleton = false) ↔
        line = "  " ++ c.table ++ ": " ++ c.key ++ "[];") := by
  refine ⟨"  " ++ c.table ++ ": " ++ c.key ++
      (if !(legacy.getD false) && !c.singleton then "[]" else "") ++ ";", ?_, rfl, ?_⟩
  · unfold renderRegistry
    exact List.mem_cons_of_mem _ (List.mem_append_left _ (List.mem_map_of_mem _ hc))
  · rw [wrap_suffix_iff]
    cases hlg : legacy.getD false <;> cases hsg : c.singleton <;> simp [hlg, hsg]

/-- Witness for C8 at a concrete input. -/
theorem c8_witness :
    ∃ line ∈ renderRegistry "MyTypes" none [⟨"authors", "Author", [], false⟩],
      line = "  " ++ "authors" ++ ": " ++ "Author" ++
        (if !((none : Option Bool).getD false) && !false then "[]" else "") ++ ";" ∧
      (((none : Option Bool).getD false = false ∧ false = false) ↔
        line = "  " ++ "authors" ++ ": " ++ "Author" ++ "[];") :=
  c8_registry_array_wrap "MyTypes" none [⟨"authors", "Author", [], false⟩]
    ⟨"authors", "Author", [], false⟩ (List.mem_singleton.mpr rfl)

/-! ## Claim C1 -/

/-- Claim C1 (amended): on the authors/books snapshot the rendered composite
type for `authors` is `export type Author = { id: string; name: string;
books?: string[] | Book[]; }` — the multi-valued relational field carries the
optional-field marker (it is not required) and per-member array suffixes
without parentheses, not a parenthesized union with one outer suffix. -/
theorem c1_authors_rendering :
    (jsGet c1state.collectionsMap "authors").map
        (renderCollectionLines c1state.collectionsMap c1state.collectionIdType) =
      some ["export type Author = \x7b", "  id: string;", "  name: string;",
        "  books?: string[] | Book[];", "\x7d;\n"] := by
  decide

/-- Counterexample to C1 as stated: on the very snapshot the claim describes,
the `books` line is `  books?: string[] | Book[];` — the line the claim
predicts, with no optional marker and an outer array suffix over a
parenthesized union, does not occur in the rendered type. -/
theorem c1_counterexample :
    ((jsGet c1state.collectionsMap "authors").map
        (renderCollectionLines c1state.collectionsMap c1state.collectionIdType)).getD []
      = ["export type Author = \x7b", "  id: string;", "  name: string;",
         "  books?: string[] | Book[];", "\x7d;\n"] ∧
      "  books: (string | Book)[];" ∉
        ((jsGet c1state.collectionsMap "authors").map
          (renderCollectionLines c1state.collectionsMap c1state.collectionIdType)).getD [] := by
  refine ⟨by decide, by decide⟩

/-! ## Claim C3 -/

theorem insertByLen_perm (c : Collection) (l : List Collection) :
    (insertByLen c l).Perm (c :: l) := by
  induction l with
  | nil => exact List.Perm.refl _
  | cons d ds ih =>
    unfold insertByLen
    split
    · exact (List.Perm.cons d ih).trans (List.Perm.swap c d ds)
    · exact List.Perm.refl _

theorem sortFold_perm (l acc : List Collection) :
    (l.foldl (fun acc c => insertByLen c acc) acc).Perm (l ++ acc) := by
  induction l generalizing acc with
  | nil => exact List.Perm.refl _
  | cons c ds ih =>
    have h1 := ih (insertByLen c acc)
    have h2 : (ds ++ insertByLen c acc).Perm (ds ++ (c :: acc)) :=
      List.Perm.append_left ds (insertByLen_perm c acc)
    have h3 : (ds ++ (c :: acc)).Perm (c :: (ds ++ acc)) := List.perm_middle
    exact (h1.trans h2).trans h3

theorem sortByTableLen_perm (l : List Collection) : (sortByTableLen l).Perm l := by
  have h := sortFold_perm l []
  simpa using h

theorem jsGet_writeFold_notin (key bestTable : String) (l : List Collection)
    (m : List (String × Collection)) (t : String) (h : t ∉ l.map Collection.table) :
    jsGet (l.foldl (fun mm c => jsSet mm c.table { c with key := resolvedKey key bestTable c }) m) t
      = jsGet m t := by
  induction l generalizing m with
  | nil => rfl
  | cons d ds ih =>
    have hd : d.table ≠ t := fun he => h (by simp [he])
    have hds : t ∉ ds.map Collection.table := fun hm => h (by simp [hm])
    rw [List.foldl_cons, ih _ hds, jsGet_jsSet_ne _ _ _ _ hd]

theorem jsGet_writeFold_mem (key bestTable : String) (l : List Collection)
    (m : List (String × Collection)) (c : Collection)
    (hnd : (l.map Collection.table).Nodup) (hc : c ∈ l) :
    jsGet (l.foldl (fun mm c => jsSet mm c.table { c with key := resolvedKey key bestTable c }) m)
        c.table
      = some { c with key := resolvedKey key bestTable c } := by
  induction l generalizing m with
  | nil => cases hc
  | cons d ds ih =>
    rw [List.foldl_cons]
    rcases List.mem_cons.mp hc with rfl | hmem
    · have hnotin : c.table ∉ ds.map Collection.table := by
        have := (List.nodup_cons.mp hnd).1
        simpa using this
      rw [jsGet_writeFold_notin key bestTable ds _ _ hnotin, jsGet_jsSet_self]
    · exact ih _ (List.nodup_cons.mp hnd).2 hmem

/-- Claim C3 (amended): for every collision group the Name Resolver processes,
the best match (table equal to the group key case-insensitively, else starting
with it, else first after the length sort) keeps the group key, and every other
member is rekeyed to the PascalCase of its own table name, singularized unless
singleton.  The resulting display keys are not pairwise distinct for every
input — the rekeyed forms can still collide (see the counterexample). -/
theorem c3_resolve_group_keys (byKey : List (String × List String))
    (m : List (String × Collection)) (key : String) (tables : List String)
    (b c : Collection)
    (htab : jsGet byKey key = some tables)
    (hb : bestMatchOf key (sortByTableLen (tables.filterMap (fun t => jsGet m t))) = some b)
    (hnd : ((tables.filterMap (fun t => jsGet m t)).map Collection.table).Nodup)
    (hc : c ∈ tables.filterMap (fun t => jsGet m t)) :
    jsGet (resolveGroup byKey m key) c.table =
      some { c with key := resolvedKey key b.table c } := by
  have hperm := sortByTableLen_perm (tables.filterMap (fun t => jsGet m t))
  have hnd2 : ((sortByTableLen (tables.filterMap (fun t => jsGet m t))).map
      Collection.table).Nodup := ((hperm.map Collection.table).nodup_iff).mpr hnd
  have hc2 : c ∈ sortByTableLen (tables.filterMap (fun t => jsGet m t)) :=
    hperm.mem_iff.mpr hc
  simp only [resolveGroup, htab, hb]
  exact jsGet_writeFold_mem key b.table _ m c hnd2 hc2

/-- Witness for C3 at a concrete input: in the group `Dup` of tables `alpha`
and `beta`, the best match is `beta` (shortest after the sort) and `alpha` is
rekeyed from its own table name to `Alpha`. -/
theorem c3_witness :
    jsGet (resolveGroup [("Dup", ["alpha", "beta"])]
        [("alpha", ⟨"alpha", "Dup", [], false⟩), ("beta", ⟨"beta", "Dup", [], false⟩)] "Dup")
      "alpha" = some ⟨"alpha", "Alpha", [], false⟩ := by
  have h := c3_resolve_group_keys [("Dup", ["alpha", "beta"])]
    [("alpha", ⟨"alpha", "Dup", [], false⟩), ("beta", ⟨"beta", "Dup", [], false⟩)] "Dup"
    ["alpha", "beta"] ⟨"beta", "Dup", [], false⟩ ⟨"alpha", "Dup", [], false⟩
    (by decide) (by decide) (by decide) (by decide)
  rw [h]
  decide

/-- Counterexample to C3 as stated: an input with duplicate pre-resolution keys
(`alpha` and `beta` both map to `Dup`) whose resolved display keys are not
pairwise distinct — `alpha` is rekeyed to `Alpha`, which collides with the
untouched key of `gamma`. -/
theorem c3_counterexample :
    c3state.duplicatedCollectionKeys = ["Dup"] ∧
      c3state.collectionsMap.map (fun p => p.2.key) = ["Alpha", "Dup", "Alpha"] ∧
      ¬(c3state.collectionsMap.map (fun p => p.2.key)).Nodup := by
  refine ⟨by decide, by decide, by decide⟩

end DirectusGen
